import Mathlib

/-!
Verification of the mlpack command-line front-end excerpt: the train/test
splitter (preprocess_split_main.cpp) and the AdaBoost model wrapper
(adaboost_main.cpp).

Datasets are column-major matrices (columns = points); here a dataset is a
`List α` of points (columns) when only columns matter (the splitter), and a
`List (List Rat)` of rows when row counts matter (the AdaBoost front end,
whose dimensionality is the number of rows).

The library routines `data::Split`, `data::NormalizeLabels`,
`data::RevertLabels` and the weak-learner ensembles live in mlpack headers
that are not part of this excerpt; they are modelled from the specification
and marked as such in their doc comments.  Everything else is translated
from the two main source files.
-/

namespace Mlpack

/-! ### Random permutation of column indices

Modelled from the spec: the splitter relies on a process-wide random number
generator seeded once (`math::RandomSeed`) and on `data::Split` drawing a
uniformly random permutation of the column indices 0..N-1; the generator and
the shuffle live in library headers outside this excerpt.  We model the
permutation as a deterministic function of the seed: a Fisher-Yates style
draw-without-replacement shuffle driven by a linear congruential generator.
The claims depend only on the result being a permutation determined by the
seed, which is proved below. -/

/-- Modelled from the spec: one step of the process-wide pseudo-random
generator behind `math::RandomSeed` / `data::Split` (a linear congruential
generator; the real generator is in a library header outside the excerpt). -/
def lcgNext (s : Nat) : Nat := (1103515245 * s + 12345) % 2147483648

/-- Modelled from the spec: draw-without-replacement shuffle.  The fuel
argument is kept equal to the length of the remaining pool `xs`; each step
draws the element at a pseudo-random position and moves it to the front of
the accumulator. -/
def shuffleGo : Nat → Nat → List Nat → List Nat → List Nat
  | 0, _, xs, acc => xs ++ acc
  | fuel+1, s, xs, acc =>
    let s2 := lcgNext s
    let j := s2 % xs.length
    shuffleGo fuel s2 (xs.take j ++ xs.drop (j+1)) ((xs.drop j).headD 0 :: acc)

/-- Modelled from the spec: the uniformly random permutation of the column
indices 0..N-1 drawn by `data::Split`, as a deterministic function of the
seed. -/
def shuffle (seed N : Nat) : List Nat := shuffleGo N seed (List.range N) []

/-! ### The split itself (modelled from the spec) -/

/-- Modelled from the spec: the number of test points used by `data::Split`,
`testCount = round(ratio * N)` (split_data.hpp is not part of the excerpt).
Written as integer arithmetic on the numerator and denominator of the ratio
so that it evaluates by kernel reduction; `testCountOf_eq_round` proves it
equal to `(round (ratio * N)).toNat`. -/
def testCountOf (N : Nat) (ratio : Rat) : Nat :=
  ((2 * ratio.num * (N : Int) + (ratio.den : Int)) / (2 * (ratio.den : Int))).toNat

/-- Modelled from the spec: the index lists produced by `data::Split` — the
first `N - testCount` entries of the random permutation are the train
indices, the remaining `testCount` the test indices. -/
def splitIndices (N : Nat) (ratio : Rat) (seed : Nat) : List Nat × List Nat :=
  let p := shuffle seed N
  let tc := testCountOf N ratio
  (p.take (N - tc), p.drop (N - tc))

/-- Modelled from the spec: `data::Split(data, ratio)` — returns the
(train, test) subsets, each listing the selected original columns in the
order induced by the permutation. -/
def Split (data : List α) (ratio : Rat) (seed : Nat) : List α × List α :=
  let idx := splitIndices data.length ratio seed
  (idx.1.filterMap (fun i => data[i]?), idx.2.filterMap (fun i => data[i]?))

/-- Modelled from the spec: `data::Split(data, labels, ratio)` — the same
permutation of column indices is applied to the dataset and to the label
vector; result order is (train, test, trainLabels, testLabels), matching the
tuple accessed by the caller. -/
def SplitLabeled (data : List α) (labels : List β) (ratio : Rat) (seed : Nat) :
    List α × List α × List β × List β :=
  let idx := splitIndices data.length ratio seed
  (idx.1.filterMap (fun i => data[i]?), idx.2.filterMap (fun i => data[i]?),
   idx.1.filterMap (fun i => labels[i]?), idx.2.filterMap (fun i => labels[i]?))

/-! ### The splitter main program (preprocess_split_main.cpp)

Translated from src/src/mlpack/methods/preprocess/preprocess_split_main.cpp.
The parameter surface is a record (a `none` output filename models an empty
or absent flag; `testRatio = none` models the flag not being passed, in
which case the CLI default 0.2 is in effect); warnings, loads and saves are
recorded as an event trace in program order. -/

inductive Ev where
  | warnNoTrainingFile
  | warnNoTestFile
  | warnNoTrainingLabelsFile
  | warnNoTestLabelsFile
  | warnTrainingLabelsIgnored
  | warnTestLabelsIgnored
  | warnDefaultRatio
  | loadData
  | loadLabels
  | saveTrainingData
  | saveTestData
  | saveTrainingLabels
  | saveTestLabels
deriving DecidableEq

structure SplitParams where
  inputFile : String
  inputLabelsFile : Option String
  trainingFile : Option String
  testFile : Option String
  trainingLabelsFile : Option String
  testLabelsFile : Option String
  testRatio : Option Rat
  seed : Nat
deriving DecidableEq

structure SplitOutputs (α β : Type) where
  trainData : Option (List α)
  testData : Option (List α)
  trainLabels : Option (List β)
  testLabels : Option (List β)
deriving DecidableEq

/-- Seed selection of the splitter main: a zero seed parameter means the
current time is used, a nonzero one is used literally
(`mlpack::math::RandomSeed`, lines 83-86 of the source). -/
def effectiveSeed (seedParam currentTime : Nat) : Nat :=
  if seedParam = 0 then currentTime else seedParam

/-- Warnings the splitter main emits before the ratio check, in source
order: missing output filenames, then the label-parameter warnings. -/
def splitWarns (p : SplitParams) : List Ev :=
  (if p.trainingFile.isNone then [Ev.warnNoTrainingFile] else [])
    ++ (if p.testFile.isNone then [Ev.warnNoTestFile] else [])
    ++ (match p.inputLabelsFile with
        | some _ =>
          (if p.trainingLabelsFile.isNone then [Ev.warnNoTrainingLabelsFile] else [])
            ++ (if p.testLabelsFile.isNone then [Ev.warnNoTestLabelsFile] else [])
        | none =>
          (if p.trainingLabelsFile.isSome then [Ev.warnTrainingLabelsIgnored] else [])
            ++ (if p.testLabelsFile.isSome then [Ev.warnTestLabelsIgnored] else []))

/-- Load-then-split-then-save part of the splitter main, reached only after
the ratio check passed: load the data, optionally load the labels, split,
and save whichever outputs have filenames. -/
def splitBody (p : SplitParams) (ratio : Rat) (seedUsed : Nat)
    (data : List α) (labels : List β) : List Ev × SplitOutputs α β :=
  match p.inputLabelsFile with
  | some _ =>
    let v := SplitLabeled data labels ratio seedUsed
    ([Ev.loadData, Ev.loadLabels]
       ++ (if p.trainingFile.isSome then [Ev.saveTrainingData] else [])
       ++ (if p.testFile.isSome then [Ev.saveTestData] else [])
       ++ (if p.trainingLabelsFile.isSome then [Ev.saveTrainingLabels] else [])
       ++ (if p.testLabelsFile.isSome then [Ev.saveTestLabels] else []),
     ⟨if p.trainingFile.isSome then some v.1 else none,
      if p.testFile.isSome then some v.2.1 else none,
      if p.trainingLabelsFile.isSome then some v.2.2.1 else none,
      if p.testLabelsFile.isSome then some v.2.2.2 else none⟩)
  | none =>
    let v := Split data ratio seedUsed
    ([Ev.loadData]
       ++ (if p.trainingFile.isSome then [Ev.saveTrainingData] else [])
       ++ (if p.testFile.isSome then [Ev.saveTestData] else []),
     ⟨if p.trainingFile.isSome then some v.1 else none,
      if p.testFile.isSome then some v.2 else none, none, none⟩)

/-- The splitter main program: emit warnings, check the test ratio (fatal
when the flag was passed with a value outside [0,1], a warning plus the
default 0.2 when it was not passed), then load, split and save.  The data
and labels stand for the contents the I/O collaborator would return for the
input files. -/
def splitMain (p : SplitParams) (currentTime : Nat)
    (data : List α) (labels : List β) :
    List Ev × Except String (SplitOutputs α β) :=
  match p.testRatio with
  | some r =>
    if r < 0 ∨ 1 < r then
      (splitWarns p, Except.error "Invalid parameter for test_ratio")
    else
      let b := splitBody p r (effectiveSeed p.seed currentTime) data labels
      (splitWarns p ++ b.1, Except.ok b.2)
  | none =>
    let b := splitBody p (mkRat 2 10) (effectiveSeed p.seed currentTime) data labels
    (splitWarns p ++ [Ev.warnDefaultRatio] ++ b.1, Except.ok b.2)

def wSplitParamsBad : SplitParams :=
  ⟨"d.csv", none, some "tr.csv", some "te.csv", none, none, some (mkRat 2 1), 1⟩

def wSplitParamsAbsent : SplitParams :=
  ⟨"d.csv", none, some "tr.csv", some "te.csv", none, none, none, 1⟩

def wSplitParamsSeeded : SplitParams :=
  ⟨"d.csv", none, some "tr.csv", some "te.csv", none, none, none, 7⟩

/-! ### Label normalization (modelled from the spec) -/

/-- Modelled from the spec: one step of building the stable label mapping
table of `data::NormalizeLabels` — append the label if it has not occurred
before. -/
def mapStep (acc : List Nat) (x : Nat) : List Nat :=
  if x ∈ acc then acc else acc ++ [x]

/-- Modelled from the spec: the stable mapping table of
`data::NormalizeLabels` (normalize_labels.hpp is not part of the excerpt) —
the distinct labels in order of first occurrence; entry k is the original
label mapped to the contiguous index k. -/
def buildMappings (l : List Nat) : List Nat := l.foldl mapStep []

/-- Modelled from the spec: `data::NormalizeLabels` — returns the labels
remapped to the contiguous range 0..K-1 together with the mapping table. -/
def NormalizeLabels (labelsIn : List Nat) : List Nat × List Nat :=
  let mappings := buildMappings labelsIn
  (labelsIn.map (fun x => mappings.indexOf x), mappings)

/-- Modelled from the spec: `data::RevertLabels` — map each normalized
prediction back through the mapping table to the original vocabulary. -/
def RevertLabels (predictions mappings : List Nat) : List Nat :=
  predictions.map (fun i => mappings.getD i 0)

/-! ### The AdaBoost model wrapper (adaboost_main.cpp)

The model class is translated from src/src/mlpack/methods/adaboost/
adaboost_main.cpp.  The two ensemble pointers become `Option` fields
(`none` = NULL).  The ensembles themselves (`AdaBoost<DecisionStump<>>`,
`AdaBoost<Perceptron<>>`) live in library headers outside the excerpt; they
are modelled from the spec as records of their constructor arguments, which
per the spec determine the trained ensemble state; their prediction
routines are treated as arbitrary functions of that state and the test
data, quantified in the theorems. -/

/-- Enum value `WeakLearnerTypes::DECISION_STUMP`; the C++ field holding it
is a plain `size_t`, so the model uses `Nat` with these two constants. -/
def DECISION_STUMP : Nat := 0

/-- Enum value `WeakLearnerTypes::PERCEPTRON`. -/
def PERCEPTRON : Nat := 1

/-- Modelled from the spec: the state of a trained
`AdaBoost<DecisionStump<>>` ensemble, determined by the constructor
arguments passed in `AdaBoostModel::Train` (the boosting math itself is
external to the excerpt). -/
structure DSBoost where
  data : List (List Rat)
  labels : List Nat
  classes : Nat
  iterations : Nat
  tolerance : Rat
deriving DecidableEq

/-- Modelled from the spec: the state of a trained `AdaBoost<Perceptron<>>`
ensemble, determined by the constructor arguments passed in
`AdaBoostModel::Train`. -/
structure PBoost where
  data : List (List Rat)
  labels : List Nat
  classes : Nat
  iterations : Nat
  tolerance : Rat
deriving DecidableEq

/-- The AdaBoostModel of adaboost_main.cpp.  A dataset here is a list of
rows, so `data.length` is the row count (the dimensionality). -/
structure AdaBoostModel where
  mappings : List Nat
  weakLearnerType : Nat
  dsBoost : Option DSBoost
  pBoost : Option PBoost
  dimensionality : Nat
deriving DecidableEq

/-- AdaBoostModel::Train.  The decision-stump branch deletes any previous
dsBoost before assigning the new ensemble (with `Option` state, delete plus
assign is assign); the perceptron branch of the C++ deletes nothing and
leaves dsBoost untouched; a tag that is neither enum value takes no branch
and only the dimensionality assignment before the branches happens. -/
def AdaBoostModel.Train (m : AdaBoostModel) (data : List (List Rat))
    (labels : List Nat) (iterations : Nat) (tolerance : Rat) : AdaBoostModel :=
  let m1 := { m with dimensionality := data.length }
  if m1.weakLearnerType = DECISION_STUMP then
    let e : DSBoost := ⟨data, labels, labels.foldr Nat.max 0 + 1, iterations, tolerance⟩
    { m1 with dsBoost := some e }
  else if m1.weakLearnerType = PERCEPTRON then
    let e : PBoost := ⟨data, labels, labels.foldr Nat.max 0 + 1, iterations, tolerance⟩
    { m1 with pBoost := some e }
  else
    m1

/-- AdaBoostModel::Classify, with the two ensembles' prediction routines
passed as functions of the ensemble state.  A `none` result models the
branch dispatching to no ensemble: with a NULL pointer of the selected kind
the C++ dereferences NULL, and with an unrecognized tag it leaves the
output row unset. -/
def AdaBoostModel.Classify (m : AdaBoostModel)
    (dsC : DSBoost → List (List Rat) → List Nat)
    (pC : PBoost → List (List Rat) → List Nat)
    (testData : List (List Rat)) : Option (List Nat) :=
  if m.weakLearnerType = DECISION_STUMP then
    m.dsBoost.map (fun e => dsC e testData)
  else if m.weakLearnerType = PERCEPTRON then
    m.pBoost.map (fun e => pC e testData)
  else
    none

/-- The archive written and read by AdaBoostModel::Serialize: mappings, tag,
at most one ensemble payload (selected by tag on save), dimensionality. -/
structure ModelArchive where
  mappings : List Nat
  weakLearnerType : Nat
  dsPayload : Option DSBoost
  pPayload : Option PBoost
  dimensionality : Nat
deriving DecidableEq

/-- Saving direction of AdaBoostModel::Serialize: only the ensemble selected
by the tag is written. -/
def serializeSave (m : AdaBoostModel) : ModelArchive :=
  ⟨m.mappings, m.weakLearnerType,
    if m.weakLearnerType = DECISION_STUMP then m.dsBoost else none,
    if m.weakLearnerType = PERCEPTRON then m.pBoost else none,
    m.dimensionality⟩

/-- Loading direction of AdaBoostModel::Serialize: both owned ensembles are
deleted and nulled first, then mappings and tag are read, then the ensemble
selected by the loaded tag is read (no branch for any other tag value), then
the dimensionality. -/
def serializeLoad (ar : ModelArchive) (m : AdaBoostModel) : AdaBoostModel :=
  let m1 : AdaBoostModel :=
    ⟨ar.mappings, ar.weakLearnerType, none, none, m.dimensionality⟩
  let m2 :=
    if ar.weakLearnerType = DECISION_STUMP then { m1 with dsBoost := ar.dsPayload }
    else if ar.weakLearnerType = PERCEPTRON then { m1 with pBoost := ar.pPayload }
    else m1
  { m2 with dimensionality := ar.dimensionality }

/-- The model-loading path of main (`data::Load(inputModelFile,
"adaboost_model", m, true)`): Serialize itself contains no failure path, so
loading a structured archive always succeeds; only stream-level I/O
failures (outside the excerpt) can be fatal. -/
def loadModel (ar : ModelArchive) : Except String AdaBoostModel :=
  Except.ok (serializeLoad ar ⟨[], 0, none, none, 0⟩)

/-- Conversion used for `conv_to<Mat<size_t>>` on the shed label row. -/
def toSizeT (q : Rat) : Nat := q.floor.toNat

/-- Label acquisition of the training branch of main: with a labels file its
row 0 is used and the training data kept whole; without one the last row of
the training matrix is converted to integers and used as labels, and that
row is shed from the training data. -/
def adaLoadLabels (trainingData : List (List Rat))
    (labelsFile : Option (List Nat)) : List Nat × List (List Rat) :=
  match labelsFile with
  | some ls => (ls, trainingData)
  | none => ((trainingData.getLastD []).map toSizeT, trainingData.dropLast)

/-- The training branch of main: validate the weak-learner name and the
iteration count (both fatal), acquire labels, normalize them into the
model's mapping table, set the tag from the weak-learner name, train. -/
def adaTrainMain (trainingData : List (List Rat))
    (labelsFile : Option (List Nat)) (iterations : Int) (tolerance : Rat)
    (weakLearner : String) : Except String AdaBoostModel :=
  if weakLearner ≠ "decision_stump" ∧ weakLearner ≠ "perceptron" then
    Except.error "Unknown weak learner type"
  else if iterations < 0 then
    Except.error "Invalid number of iterations"
  else
    let p := adaLoadLabels trainingData labelsFile
    let n := NormalizeLabels p.1
    let m0 : AdaBoostModel :=
      ⟨n.2, if weakLearner = "decision_stump" then DECISION_STUMP else PERCEPTRON,
        none, none, 0⟩
    Except.ok (m0.Train p.2 n.1 iterations.toNat tolerance)

/-- The classification branch of main: fatal dimensionality check, classify,
revert the predictions through the model's mapping table.  The `none`
Classify outcome (no ensemble dispatched) is modelled as an error; the C++
would dereference a NULL pointer or report unset predictions there. -/
def adaTestPath (dsC : DSBoost → List (List Rat) → List Nat)
    (pC : PBoost → List (List Rat) → List Nat)
    (m : AdaBoostModel) (testData : List (List Rat)) :
    Except String (List Nat) :=
  if testData.length ≠ m.dimensionality then
    Except.error "Test data dimensionality must be the same as the model dimensionality"
  else
    match m.Classify dsC pC testData with
    | some preds => Except.ok (RevertLabels preds m.mappings)
    | none => Except.error "no ensemble dispatched"

def wC8DS : DSBoost := ⟨[[1, 0]], [0, 1], 2, 5, 1⟩

def wC8Model : AdaBoostModel := ⟨[2, 5], DECISION_STUMP, some wC8DS, none, 1⟩

def wC8DsC : DSBoost → List (List Rat) → List Nat := fun _ _ => [0, 1]

def wC8PC : PBoost → List (List Rat) → List Nat := fun _ _ => []

def wC8TestData : List (List Rat) := [[3, 4]]

def wC10Model : AdaBoostModel := ⟨[], 2, none, none, 0⟩

def wC4Archive : ModelArchive := ⟨[3], 2, some ⟨[[1]], [0], 1, 1, 1⟩, none, 4⟩

def wC5DS : DSBoost := ⟨[[1, 0]], [0, 1], 2, 4, 1⟩

def wC5Model : AdaBoostModel := ⟨[4, 6], DECISION_STUMP, some wC5DS, none, 1⟩

def wC5Fresh : AdaBoostModel := ⟨[], 0, none, none, 0⟩

/-! ### Theorems -/

theorem shuffleGo_perm :
    ∀ (fuel s : Nat) (xs acc : List Nat), xs.length = fuel →
      List.Perm (shuffleGo fuel s xs acc) (xs ++ acc) := by
  intro fuel
  induction fuel with
  | zero => intro s xs acc _; exact List.Perm.refl _
  | succ n ih =>
    intro s xs acc hlen
    have hpos : 0 < xs.length := by omega
    have hj : lcgNext s % xs.length < xs.length := Nat.mod_lt _ hpos
    set j := lcgNext s % xs.length with hjdef
    have hdropj : xs.drop j = xs[j] :: xs.drop (j+1) := List.drop_eq_getElem_cons hj
    have hhead : (xs.drop j).headD 0 = xs[j] := by rw [hdropj]; rfl
    have hlen2 : (xs.take j ++ xs.drop (j+1)).length = n := by
      rw [List.length_append, List.length_take, List.length_drop]
      omega
    have hsplit : xs.take j ++ xs[j] :: xs.drop (j+1) = xs := by
      rw [← hdropj]; exact List.take_append_drop j xs
    have h1 : List.Perm (shuffleGo n (lcgNext s) (xs.take j ++ xs.drop (j+1))
        ((xs.drop j).headD 0 :: acc))
        ((xs.take j ++ xs.drop (j+1)) ++ ((xs.drop j).headD 0 :: acc)) :=
      ih (lcgNext s) _ _ hlen2
    rw [shuffleGo]
    refine h1.trans ?_
    rw [hhead, List.append_assoc]
    have h2 : List.Perm (xs.drop (j+1) ++ xs[j] :: acc) (xs[j] :: (xs.drop (j+1) ++ acc)) :=
      List.perm_middle
    refine (List.Perm.append_left (xs.take j) h2).trans ?_
    have h3 : xs.take j ++ xs[j] :: (xs.drop (j+1) ++ acc) = xs ++ acc := by
      rw [← List.cons_append, ← List.append_assoc, hsplit]
    rw [h3]

theorem shuffle_perm (seed N : Nat) : List.Perm (shuffle seed N) (List.range N) := by
  have h := shuffleGo_perm N seed (List.range N) [] (List.length_range N)
  simpa using h

theorem shuffle_length (seed N : Nat) : (shuffle seed N).length = N := by
  have := (shuffle_perm seed N).length_eq
  simpa using this

theorem shuffle_nodup (seed N : Nat) : (shuffle seed N).Nodup :=
  ((shuffle_perm seed N).symm.nodup (List.nodup_range N))

theorem mem_shuffle_lt (seed N i : Nat) (h : i ∈ shuffle seed N) : i < N := by
  have := ((shuffle_perm seed N).mem_iff).mp h
  exact List.mem_range.mp this

theorem testCountOf_eq_round (N : Nat) (r : Rat) :
    testCountOf N r = (round (r * (N : Rat))).toNat := by
  unfold testCountOf
  rw [round_eq]
  have hd : ((r.den : Rat)) ≠ 0 := Nat.cast_ne_zero.mpr r.den_nz
  have hrd : ((r.num : Rat)) = r * (r.den : Rat) := by
    have h := Rat.num_div_den r
    rw [div_eq_iff hd] at h
    exact h
  have h1 : r * (N : Rat) + 1 / 2
      = (((2 * r.num * (N : Int) + (r.den : Int) : Int)) : Rat)
        / (((2 * r.den : Nat)) : Rat) := by
    have hB : (((2 * r.den : Nat)) : Rat) ≠ 0 := by
      push_cast
      intro hcon
      apply hd
      linarith
    rw [eq_div_iff hB]
    push_cast
    rw [hrd]
    ring
  rw [h1, Rat.floor_intCast_div_natCast]
  congr 1

theorem filterMap_getElem_length (data : List α) (idx : List Nat)
    (h : ∀ i ∈ idx, i < data.length) :
    (idx.filterMap (fun i => data[i]?)).length = idx.length := by
  induction idx with
  | nil => rfl
  | cons a l ih =>
    have ha : a < data.length := h a (List.mem_cons_self a l)
    have hl : ∀ i ∈ l, i < data.length := fun i hi => h i (List.mem_cons_of_mem a hi)
    rw [List.filterMap_cons, List.getElem?_eq_getElem ha]
    simp [ih hl]

theorem filterMap_getElem?_idx (data : List α) (idx : List Nat)
    (h : ∀ i ∈ idx, i < data.length) (k : Nat) :
    (idx.filterMap (fun i => data[i]?))[k]? = (idx[k]?).bind (fun i => data[i]?) := by
  induction idx generalizing k with
  | nil => simp
  | cons a l ih =>
    have ha : a < data.length := h a (List.mem_cons_self a l)
    have hl : ∀ i ∈ l, i < data.length := fun i hi => h i (List.mem_cons_of_mem a hi)
    rw [List.filterMap_cons, List.getElem?_eq_getElem ha]
    cases k with
    | zero => simp [List.getElem?_eq_getElem ha]
    | succ k => simpa using ih hl k

theorem testCountOf_le (N : Nat) (r : Rat) (h0 : 0 ≤ r) (h1 : r ≤ 1) :
    testCountOf N r ≤ N := by
  rw [testCountOf_eq_round, Int.toNat_le]
  have hN : (0 : Rat) ≤ (N : Rat) := by positivity
  have h2 : r * (N : Rat) ≤ (N : Rat) := by
    calc r * (N : Rat) ≤ 1 * (N : Rat) := mul_le_mul_of_nonneg_right h1 hN
    _ = (N : Rat) := one_mul _
  have h3 : round (r * (N : Rat)) ≤ round ((N : Rat)) := by
    rw [round_eq, round_eq]
    exact Int.floor_mono (by linarith)
  simpa using h3

theorem mem_splitIndices_train_lt (N : Nat) (r : Rat) (seed i : Nat)
    (h : i ∈ (splitIndices N r seed).1) : i < N :=
  mem_shuffle_lt seed N i (List.mem_of_mem_take h)

theorem mem_splitIndices_test_lt (N : Nat) (r : Rat) (seed i : Nat)
    (h : i ∈ (splitIndices N r seed).2) : i < N :=
  mem_shuffle_lt seed N i (List.mem_of_mem_drop h)

theorem splitIndices_append (N : Nat) (r : Rat) (seed : Nat) :
    (splitIndices N r seed).1 ++ (splitIndices N r seed).2 = shuffle seed N :=
  List.take_append_drop _ _

/-- C1: for every dataset D with N points and every ratio r in [0,1],
Split(D, r) returns a test set of exactly round(r*N) points and a train set
of exactly N - round(r*N) points (so the two lengths sum to N); the two
index lists are disjoint, and their concatenation is a permutation of the
full index set 0..N-1.  With r = 0 the test set is empty and with r = 1 the
train set is empty, as instances of the count equations. -/
theorem split_partition {α : Type} (data : List α) (r : Rat) (seed : Nat)
    (h0 : 0 ≤ r) (h1 : r ≤ 1) :
    (Split data r seed).2.length = (round (r * (data.length : Rat))).toNat ∧
    (Split data r seed).1.length + (Split data r seed).2.length = data.length ∧
    List.Disjoint (splitIndices data.length r seed).1 (splitIndices data.length r seed).2 ∧
    List.Perm ((splitIndices data.length r seed).1 ++ (splitIndices data.length r seed).2)
      (List.range data.length) := by
  have htc : testCountOf data.length r ≤ data.length := testCountOf_le _ r h0 h1
  have hplen : (shuffle seed data.length).length = data.length := shuffle_length _ _
  have htest : (Split data r seed).2.length = testCountOf data.length r := by
    show ((splitIndices data.length r seed).2.filterMap (fun i => data[i]?)).length = _
    rw [filterMap_getElem_length data _ (fun i hi => mem_splitIndices_test_lt _ r seed i hi)]
    show ((shuffle seed data.length).drop _).length = _
    rw [List.length_drop, hplen]
    omega
  have htrain : (Split data r seed).1.length = data.length - testCountOf data.length r := by
    show ((splitIndices data.length r seed).1.filterMap (fun i => data[i]?)).length = _
    rw [filterMap_getElem_length data _ (fun i hi => mem_splitIndices_train_lt _ r seed i hi)]
    show ((shuffle seed data.length).take _).length = _
    rw [List.length_take, hplen]
    omega
  have hperm : List.Perm
      ((splitIndices data.length r seed).1 ++ (splitIndices data.length r seed).2)
      (List.range data.length) := by
    rw [splitIndices_append]
    exact shuffle_perm seed data.length
  refine ⟨by rw [htest, testCountOf_eq_round], ?_, ?_, hperm⟩
  · rw [htest, htrain]; omega
  · exact List.disjoint_of_nodup_append
      (by rw [splitIndices_append]; exact shuffle_nodup seed data.length)

theorem split_partition_witness :
    ((0 : Rat) ≤ mkRat 1 3 ∧ mkRat 1 3 ≤ 1) ∧
    ((Split [10, 20, 30] (mkRat 1 3) 1).2.length
        = (round ((mkRat 1 3) * (((3 : Nat) : Nat) : Rat))).toNat ∧
      (Split [10, 20, 30] (mkRat 1 3) 1).1.length
          + (Split [10, 20, 30] (mkRat 1 3) 1).2.length = 3 ∧
      List.Disjoint (splitIndices 3 (mkRat 1 3) 1).1 (splitIndices 3 (mkRat 1 3) 1).2 ∧
      List.Perm ((splitIndices 3 (mkRat 1 3) 1).1 ++ (splitIndices 3 (mkRat 1 3) 1).2)
        (List.range 3)) :=
  ⟨⟨by decide, by decide⟩,
    split_partition [10, 20, 30] (mkRat 1 3) 1 (by decide) (by decide)⟩

/-- C3: for every dataset D and label vector L of matching length, the
labeled Split applies one identical permutation of column indices to both:
whenever position k of the train (respectively test) index list holds the
original column j, position k of the output train (test) data is D[j] and
position k of the output train (test) label vector is L[j]. -/
theorem split_labels_aligned {α β : Type} (data : List α) (labels : List β)
    (r : Rat) (seed : Nat) (hlen : labels.length = data.length) :
    (∀ (k j : Nat), ((splitIndices data.length r seed).1)[k]? = some j →
      ((SplitLabeled data labels r seed).1)[k]? = data[j]? ∧
      ((SplitLabeled data labels r seed).2.2.1)[k]? = labels[j]?) ∧
    (∀ (k j : Nat), ((splitIndices data.length r seed).2)[k]? = some j →
      ((SplitLabeled data labels r seed).2.1)[k]? = data[j]? ∧
      ((SplitLabeled data labels r seed).2.2.2)[k]? = labels[j]?) := by
  have hd1 : ∀ i ∈ (splitIndices data.length r seed).1, i < data.length :=
    fun i hi => mem_splitIndices_train_lt _ r seed i hi
  have hd2 : ∀ i ∈ (splitIndices data.length r seed).2, i < data.length :=
    fun i hi => mem_splitIndices_test_lt _ r seed i hi
  have hl1 : ∀ i ∈ (splitIndices data.length r seed).1, i < labels.length := by
    rw [hlen]; exact hd1
  have hl2 : ∀ i ∈ (splitIndices data.length r seed).2, i < labels.length := by
    rw [hlen]; exact hd2
  constructor
  · intro k j hk
    constructor
    · show ((splitIndices data.length r seed).1.filterMap (fun i => data[i]?))[k]? = _
      rw [filterMap_getElem?_idx data _ hd1 k, hk]
      rfl
    · show ((splitIndices data.length r seed).1.filterMap (fun i => labels[i]?))[k]? = _
      rw [filterMap_getElem?_idx labels _ hl1 k, hk]
      rfl
  · intro k j hk
    constructor
    · show ((splitIndices data.length r seed).2.filterMap (fun i => data[i]?))[k]? = _
      rw [filterMap_getElem?_idx data _ hd2 k, hk]
      rfl
    · show ((splitIndices data.length r seed).2.filterMap (fun i => labels[i]?))[k]? = _
      rw [filterMap_getElem?_idx labels _ hl2 k, hk]
      rfl

theorem split_labels_aligned_witness :
    (([7, 8, 9] : List Nat).length = ([10, 20, 30] : List Nat).length ∧
      ((splitIndices 3 (mkRat 1 3) 1).2)[0]? = some 0) ∧
    ((SplitLabeled [10, 20, 30] [7, 8, 9] (mkRat 1 3) 1).2.1)[0]?
        = ([10, 20, 30] : List Nat)[0]? ∧
    ((SplitLabeled [10, 20, 30] [7, 8, 9] (mkRat 1 3) 1).2.2.2)[0]?
        = ([7, 8, 9] : List Nat)[0]? :=
  ⟨⟨rfl, by decide⟩,
    (split_labels_aligned [10, 20, 30] [7, 8, 9] (mkRat 1 3) 1 rfl).2 0 0 (by decide)⟩

theorem loadData_not_mem_splitWarns (p : SplitParams) :
    Ev.loadData ∉ splitWarns p := by
  unfold splitWarns
  intro hmem
  rcases List.mem_append.mp hmem with h | h
  · rcases List.mem_append.mp h with h1 | h1 <;> revert h1 <;> split <;> simp
  · revert h
    rcases p.inputLabelsFile with _ | f <;> simp only [] <;>
      · intro h
        rcases List.mem_append.mp h with h1 | h1 <;> revert h1 <;> split <;> simp

/-- C6: if the test_ratio flag is supplied with a value outside [0,1], the
splitter terminates with the fatal configuration error before any data file
is loaded and produces no output; if the flag is absent, ratio 0.2 is used,
a warning is emitted, and execution continues to a successful result (absent
is never fatal, present-and-invalid always is). -/
theorem testRatio_validation {α β : Type} (p : SplitParams) (currentTime : Nat)
    (data : List α) (labels : List β) :
    (∀ r : Rat, p.testRatio = some r → (r < 0 ∨ 1 < r) →
      (splitMain p currentTime data labels).2
          = Except.error "Invalid parameter for test_ratio" ∧
        Ev.loadData ∉ (splitMain p currentTime data labels).1) ∧
    (p.testRatio = none →
      Ev.warnDefaultRatio ∈ (splitMain p currentTime data labels).1 ∧
      (splitMain p currentTime data labels).2 = Except.ok
        (splitBody p (mkRat 2 10) (effectiveSeed p.seed currentTime)
          data labels).2) := by
  constructor
  · intro r hr hbad
    unfold splitMain
    rw [hr]
    simp only [if_pos hbad]
    exact ⟨trivial, loadData_not_mem_splitWarns p⟩
  · intro hr
    unfold splitMain
    rw [hr]
    simp

theorem testRatio_validation_witness :
    ((wSplitParamsBad.testRatio = some (mkRat 2 1) ∧
        ((mkRat 2 1 : Rat) < 0 ∨ 1 < (mkRat 2 1 : Rat))) ∧
      (splitMain wSplitParamsBad 0 ([1, 2] : List Nat) ([] : List Nat)).2
          = Except.error "Invalid parameter for test_ratio" ∧
      Ev.loadData ∉ (splitMain wSplitParamsBad 0 ([1, 2] : List Nat)
        ([] : List Nat)).1) ∧
    (wSplitParamsAbsent.testRatio = none ∧
      Ev.warnDefaultRatio ∈ (splitMain wSplitParamsAbsent 0 ([1, 2] : List Nat)
          ([] : List Nat)).1 ∧
      (splitMain wSplitParamsAbsent 0 ([1, 2] : List Nat) ([] : List Nat)).2
        = Except.ok (splitBody wSplitParamsAbsent (mkRat 2 10) (effectiveSeed 1 0)
            ([1, 2] : List Nat) ([] : List Nat)).2) :=
  ⟨⟨⟨rfl, by decide⟩,
      (testRatio_validation wSplitParamsBad 0 [1, 2] []).1 (mkRat 2 1) rfl (by decide)⟩,
    rfl, (testRatio_validation wSplitParamsAbsent 0 [1, 2] []).2 rfl⟩

/-- C7: splitting is deterministic given the seed — for every parameter
record with a nonzero seed, two runs of the splitter main at different
current times produce identical traces and identical train/test partitions;
only a zero seed makes the run depend on the current time. -/
theorem split_deterministic_given_seed {α β : Type} (p : SplitParams)
    (t1 t2 : Nat) (data : List α) (labels : List β) (h : p.seed ≠ 0) :
    splitMain p t1 data labels = splitMain p t2 data labels := by
  have he : ∀ t, effectiveSeed p.seed t = p.seed := by
    intro t
    unfold effectiveSeed
    rw [if_neg h]
  unfold splitMain
  rw [he t1, he t2]

theorem split_deterministic_given_seed_witness :
    wSplitParamsSeeded.seed ≠ 0 ∧
    splitMain wSplitParamsSeeded 11 ([1, 2, 3] : List Nat) ([] : List Nat)
      = splitMain wSplitParamsSeeded 99 ([1, 2, 3] : List Nat) ([] : List Nat) :=
  ⟨by decide, split_deterministic_given_seed wSplitParamsSeeded 11 99 _ _ (by decide)⟩

theorem mem_foldl_mapStep :
    ∀ (l acc : List Nat) (x : Nat), x ∈ acc ∨ x ∈ l → x ∈ l.foldl mapStep acc := by
  intro l
  induction l with
  | nil =>
    intro acc x h
    rw [List.foldl_nil]
    simpa using h
  | cons y ys ih =>
    intro acc x h
    rw [List.foldl_cons]
    apply ih
    rcases h with h | h
    · left
      unfold mapStep
      split
      · exact h
      · exact List.mem_append_left _ h
    · rcases List.mem_cons.mp h with rfl | h
      · left
        unfold mapStep
        split
        · assumption
        · exact List.mem_append_right _ (List.mem_singleton.mpr rfl)
      · right
        exact h

theorem mem_buildMappings (l : List Nat) (x : Nat) (h : x ∈ l) :
    x ∈ buildMappings l :=
  mem_foldl_mapStep l [] x (Or.inr h)

theorem buildMappings_getD_indexOf (l : List Nat) (x : Nat) (h : x ∈ l) :
    (buildMappings l).getD ((buildMappings l).indexOf x) 0 = x := by
  have hmem := mem_buildMappings l x h
  have hlt : (buildMappings l).indexOf x < (buildMappings l).length :=
    List.indexOf_lt_length.mpr hmem
  rw [List.getD_eq_getElem?_getD, List.getElem?_eq_getElem hlt]
  have hget := List.indexOf_get hlt
  simpa using hget

/-! ### Theorems about the AdaBoost model -/

/-- C8: label normalization is invertible — for every label vector over any
vocabulary, RevertLabels(NormalizeLabels(L)) = L; and the classification
branch of main reports predictions passed through RevertLabels with the
model's mapping table, so reported predictions lie in the original
vocabulary. -/
theorem normalize_revert_roundtrip (l : List Nat) :
    RevertLabels (NormalizeLabels l).1 (NormalizeLabels l).2 = l ∧
    (∀ (m : AdaBoostModel) (dsC : DSBoost → List (List Rat) → List Nat)
        (pC : PBoost → List (List Rat) → List Nat)
        (t : List (List Rat)) (preds : List Nat),
      t.length = m.dimensionality → m.Classify dsC pC t = some preds →
      adaTestPath dsC pC m t = Except.ok (RevertLabels preds m.mappings)) := by
  constructor
  · unfold NormalizeLabels RevertLabels
    simp only [List.map_map]
    have hid : ∀ x ∈ l,
        ((fun i => (buildMappings l).getD i 0) ∘ fun x => (buildMappings l).indexOf x) x
          = id x :=
      fun x hx => buildMappings_getD_indexOf l x hx
    rw [List.map_congr_left hid, List.map_id]
  · intro m dsC pC t preds hdim hcls
    unfold adaTestPath
    rw [if_neg (not_not_intro hdim), hcls]

theorem normalize_revert_roundtrip_witness :
    RevertLabels (NormalizeLabels [2, 5, 9, 5]).1 (NormalizeLabels [2, 5, 9, 5]).2
        = [2, 5, 9, 5] ∧
    (wC8TestData.length = wC8Model.dimensionality ∧
      wC8Model.Classify wC8DsC wC8PC wC8TestData = some [0, 1]) ∧
    adaTestPath wC8DsC wC8PC wC8Model wC8TestData
      = Except.ok (RevertLabels [0, 1] wC8Model.mappings) :=
  ⟨(normalize_revert_roundtrip [2, 5, 9, 5]).1, ⟨rfl, rfl⟩,
    (normalize_revert_roundtrip [2, 5, 9, 5]).2 wC8Model wC8DsC wC8PC
      wC8TestData [0, 1] rfl rfl⟩

/-- C10: Train with a tag that is neither DECISION_STUMP nor PERCEPTRON
raises no error and constructs no ensemble: its only effect is to overwrite
the recorded dimensionality with the row count, both ensemble fields are
left as they were, and a later Classify with that tag dispatches to no
ensemble. -/
theorem train_unknown_tag (m : AdaBoostModel) (d : List (List Rat))
    (ls : List Nat) (it : Nat) (tol : Rat)
    (h1 : m.weakLearnerType ≠ DECISION_STUMP)
    (h2 : m.weakLearnerType ≠ PERCEPTRON) :
    m.Train d ls it tol = { m with dimensionality := d.length } ∧
    (∀ (dsC : DSBoost → List (List Rat) → List Nat)
        (pC : PBoost → List (List Rat) → List Nat) (t : List (List Rat)),
      (m.Train d ls it tol).Classify dsC pC t = none) := by
  have htr : m.Train d ls it tol = { m with dimensionality := d.length } := by
    unfold AdaBoostModel.Train
    rw [if_neg h1, if_neg h2]
  refine ⟨htr, ?_⟩
  intro dsC pC t
  rw [htr]
  unfold AdaBoostModel.Classify
  rw [if_neg h1, if_neg h2]

theorem train_unknown_tag_witness :
    (wC10Model.weakLearnerType ≠ DECISION_STUMP ∧
      wC10Model.weakLearnerType ≠ PERCEPTRON) ∧
    wC10Model.Train [[1, 2]] [0] 3 1 = { wC10Model with dimensionality := 1 } ∧
    (wC10Model.Train [[1, 2]] [0] 3 1).Classify (fun _ _ => [7]) (fun _ _ => [8])
      [[9, 9]] = none :=
  ⟨⟨by decide, by decide⟩,
    (train_unknown_tag wC10Model [[1, 2]] [0] 3 1 (by decide) (by decide)).1,
    (train_unknown_tag wC10Model [[1, 2]] [0] 3 1 (by decide) (by decide)).2
      (fun _ _ => [7]) (fun _ _ => [8]) [[9, 9]]⟩

/-- C2: evaluation of the code at the failing call sequence — train a
decision-stump model, retag it to PERCEPTRON (the public mutable
WeakLearnerType accessor), train again: the perceptron branch installs
pBoost without releasing dsBoost, so both ensemble pointers are non-null at
once, contradicting the mutual-exclusion invariant and the field comments
of the source (dsBoost "Non-NULL if using decision stumps"). -/
theorem train_mutual_exclusion_violated :
    (((⟨[0, 1], DECISION_STUMP, none, none, 0⟩ : AdaBoostModel).Train
        [[1, 0]] [0, 1] 5 1).dsBoost).isSome = true ∧
    (let m1 := (⟨[0, 1], DECISION_STUMP, none, none, 0⟩ : AdaBoostModel).Train
        [[1, 0]] [0, 1] 5 1
     let m2 := { m1 with weakLearnerType := PERCEPTRON }.Train [[2, 3]] [1, 0] 5 1
     m2.weakLearnerType = PERCEPTRON ∧ m2.dsBoost.isSome = true ∧
       m2.pBoost.isSome = true) := by
  constructor
  · rfl
  · exact ⟨rfl, rfl, rfl⟩

/-- C4 counterexample: loading an archive whose weak-learner tag is 2
(neither DECISION_STUMP = 0 nor PERCEPTRON = 1) is not a fatal error — the
load silently succeeds, reads no ensemble payload (the payload present in
the archive is dropped), and leaves both ensemble pointers null. -/
theorem load_unknown_tag_not_fatal :
    loadModel wC4Archive = Except.ok ⟨[3], 2, none, none, 4⟩ := rfl

/-- C4 amended: when deserializing an AdaBoostModel, an unrecognized
weak-learner tag is not a fatal error; the load silently succeeds with no
ensemble payload read — mappings, tag and dimensionality are restored and
both ensemble pointers are left null. -/
theorem load_unknown_tag_silent (ar : ModelArchive) (m : AdaBoostModel)
    (h1 : ar.weakLearnerType ≠ DECISION_STUMP)
    (h2 : ar.weakLearnerType ≠ PERCEPTRON) :
    serializeLoad ar m
      = ⟨ar.mappings, ar.weakLearnerType, none, none, ar.dimensionality⟩ := by
  simp [serializeLoad, h1, h2]

theorem load_unknown_tag_silent_witness :
    (wC4Archive.weakLearnerType ≠ DECISION_STUMP ∧
      wC4Archive.weakLearnerType ≠ PERCEPTRON) ∧
    serializeLoad wC4Archive ⟨[9], 0, none, none, 7⟩
      = ⟨[3], 2, none, none, 4⟩ :=
  ⟨⟨by decide, by decide⟩,
    load_unknown_tag_silent wC4Archive ⟨[9], 0, none, none, 7⟩
      (by decide) (by decide)⟩

/-- C5: for every trained model and test set of matching dimensionality,
saving and re-loading into any fresh model yields exactly the same
Classify result and the same reported (reverted) predictions as the
original model — the saved payload (mappings, tag, the single ensemble,
dimensionality) fully determines classification behaviour. -/
theorem save_load_classify_roundtrip (m m0 : AdaBoostModel)
    (dsC : DSBoost → List (List Rat) → List Nat)
    (pC : PBoost → List (List Rat) → List Nat)
    (t : List (List Rat))
    (htrained : (m.weakLearnerType = DECISION_STUMP ∧ m.dsBoost.isSome = true) ∨
      (m.weakLearnerType = PERCEPTRON ∧ m.pBoost.isSome = true))
    (hdim : t.length = m.dimensionality) :
    (serializeLoad (serializeSave m) m0).Classify dsC pC t
        = m.Classify dsC pC t ∧
    adaTestPath dsC pC (serializeLoad (serializeSave m) m0) t
        = adaTestPath dsC pC m t ∧
    (serializeLoad (serializeSave m) m0).mappings = m.mappings := by
  rcases htrained with ⟨htag, _⟩ | ⟨htag, _⟩
  · have hload : serializeLoad (serializeSave m) m0
        = ⟨m.mappings, m.weakLearnerType, m.dsBoost, none, m.dimensionality⟩ := by
      unfold serializeLoad serializeSave
      simp [htag, DECISION_STUMP, PERCEPTRON]
    have hcls : (serializeLoad (serializeSave m) m0).Classify dsC pC t
        = m.Classify dsC pC t := by
      rw [hload]
      unfold AdaBoostModel.Classify
      simp [htag, DECISION_STUMP, PERCEPTRON]
    refine ⟨hcls, ?_, by rw [hload]⟩
    unfold adaTestPath
    rw [hcls, hload]
  · have hload : serializeLoad (serializeSave m) m0
        = ⟨m.mappings, m.weakLearnerType, none, m.pBoost, m.dimensionality⟩ := by
      unfold serializeLoad serializeSave
      simp [htag, DECISION_STUMP, PERCEPTRON]
    have hcls : (serializeLoad (serializeSave m) m0).Classify dsC pC t
        = m.Classify dsC pC t := by
      rw [hload]
      unfold AdaBoostModel.Classify
      simp [htag, DECISION_STUMP, PERCEPTRON]
    refine ⟨hcls, ?_, by rw [hload]⟩
    unfold adaTestPath
    rw [hcls, hload]

theorem save_load_classify_roundtrip_witness :
    (((wC5Model.weakLearnerType = DECISION_STUMP ∧
          wC5Model.dsBoost.isSome = true) ∨
        (wC5Model.weakLearnerType = PERCEPTRON ∧
          wC5Model.pBoost.isSome = true)) ∧
      ([[2, 2]] : List (List Rat)).length = wC5Model.dimensionality) ∧
    (serializeLoad (serializeSave wC5Model) wC5Fresh).Classify
        (fun _ _ => [1, 0]) (fun _ _ => []) [[2, 2]]
      = wC5Model.Classify (fun _ _ => [1, 0]) (fun _ _ => []) [[2, 2]] ∧
    adaTestPath (fun _ _ => [1, 0]) (fun _ _ => [])
        (serializeLoad (serializeSave wC5Model) wC5Fresh) [[2, 2]]
      = adaTestPath (fun _ _ => [1, 0]) (fun _ _ => []) wC5Model [[2, 2]] ∧
    (serializeLoad (serializeSave wC5Model) wC5Fresh).mappings
      = wC5Model.mappings :=
  ⟨⟨Or.inl ⟨rfl, rfl⟩, rfl⟩,
    save_load_classify_roundtrip wC5Model wC5Fresh (fun _ _ => [1, 0])
      (fun _ _ => []) [[2, 2]] (Or.inl ⟨rfl, rfl⟩) rfl⟩

/-- C9: when training without a labels file, the labels are the last row of
the training matrix converted to integers, that row is shed before Train
runs (the trained ensemble is built on the shed matrix and the normalized
last-row labels), the model's recorded dimensionality is the input row
count minus one, and later test data of any other row count is rejected
with the fatal dimensionality mismatch. -/
theorem lastRow_labels (td : List (List Rat)) (it : Int) (tol : Rat)
    (hne : td ≠ []) (hit : ¬ it < 0) :
    ∃ m, adaTrainMain td none it tol "decision_stump" = Except.ok m ∧
      m.dimensionality = td.length - 1 ∧
      (∃ e, m.dsBoost = some e ∧ e.data = td.dropLast ∧
        e.labels = (NormalizeLabels ((td.getLast hne).map toSizeT)).1) ∧
      m.mappings = (NormalizeLabels ((td.getLast hne).map toSizeT)).2 ∧
      (∀ (dsC : DSBoost → List (List Rat) → List Nat)
          (pC : PBoost → List (List Rat) → List Nat) (t : List (List Rat)),
        t.length ≠ td.length - 1 →
        adaTestPath dsC pC m t = Except.error
          "Test data dimensionality must be the same as the model dimensionality") := by
  have hlast : td.getLastD [] = td.getLast hne := by
    rw [List.getLastD_eq_getLast?, List.getLast?_eq_getLast td hne]
    rfl
  have hstep : adaTrainMain td none it tol "decision_stump"
      = Except.ok ((⟨(NormalizeLabels ((td.getLast hne).map toSizeT)).2,
          DECISION_STUMP, none, none, 0⟩ : AdaBoostModel).Train td.dropLast
          (NormalizeLabels ((td.getLast hne).map toSizeT)).1 it.toNat tol) := by
    unfold adaTrainMain adaLoadLabels
    rw [if_neg (by simp), if_neg hit, hlast]
    rfl
  have htrain : (⟨(NormalizeLabels ((td.getLast hne).map toSizeT)).2,
      DECISION_STUMP, none, none, 0⟩ : AdaBoostModel).Train td.dropLast
      (NormalizeLabels ((td.getLast hne).map toSizeT)).1 it.toNat tol
      = ⟨(NormalizeLabels ((td.getLast hne).map toSizeT)).2, DECISION_STUMP,
          some ⟨td.dropLast, (NormalizeLabels ((td.getLast hne).map toSizeT)).1,
            ((NormalizeLabels ((td.getLast hne).map toSizeT)).1).foldr Nat.max 0 + 1,
            it.toNat, tol⟩,
          none, td.dropLast.length⟩ := by
    unfold AdaBoostModel.Train
    rw [if_pos rfl]
  refine ⟨_, hstep, ?_, ?_, ?_, ?_⟩
  · rw [htrain]
    simp [List.length_dropLast]
  · rw [htrain]
    exact ⟨_, rfl, rfl, rfl⟩
  · rw [htrain]
  · intro dsC pC t ht
    rw [htrain]
    unfold adaTestPath
    rw [if_pos]
    show t.length ≠ td.dropLast.length
    rw [List.length_dropLast]
    exact ht

theorem lastRow_labels_witness :
    (([[1, 2], [0, 1]] : List (List Rat)) ≠ [] ∧ ¬ (1000 : Int) < 0) ∧
    (∃ m, adaTrainMain [[1, 2], [0, 1]] none 1000 1 "decision_stump"
        = Except.ok m ∧
      m.dimensionality = 1 ∧
      (∃ e, m.dsBoost = some e ∧ e.data = [[1, 2]] ∧
        e.labels = (NormalizeLabels
          ((([[1, 2], [0, 1]] : List (List Rat)).getLast (by decide)).map
            toSizeT)).1) ∧
      m.mappings = (NormalizeLabels
        ((([[1, 2], [0, 1]] : List (List Rat)).getLast (by decide)).map
          toSizeT)).2 ∧
      (∀ (dsC : DSBoost → List (List Rat) → List Nat)
          (pC : PBoost → List (List Rat) → List Nat) (t : List (List Rat)),
        t.length ≠ 1 →
        adaTestPath dsC pC m t = Except.error
          "Test data dimensionality must be the same as the model dimensionality")) :=
  ⟨⟨by decide, by decide⟩,
    lastRow_labels [[1, 2], [0, 1]] 1000 1 (by decide) (by decide)⟩

end Mlpack

